import Mathlib

/-!
Shallow embedding of the `exn` Rust crate: an exception-tree library.
Each definition mirrors one item of the source (`src/exn.rs`, `src/repr.rs`,
`src/repr/tree.rs`, `src/repr/list.rs`, `src/iter.rs`, `src/result.rs`,
`src/option.rs`, `src/error.rs`).

Modelling conventions:
* A concrete Rust error value (`dyn Error + Send + Sync`) is modelled by
  `NativeError`: a runtime type tag (modelling `TypeId`, used by
  `downcast_ref`), a `Display` string, and the native `Error::source` chain.
* `#[track_caller]` / `Location::caller()` is modelled by passing the caller
  location explicitly to every `#[track_caller]` function.
* `Formatter`-based rendering is modelled by functions returning the `String`
  the Rust code writes (non-alternate mode, which is what the tree renderer
  implements; the alternate mode is a derived structural dump and is not
  modelled).
-/

/-- Model of `std::panic::Location`: file, line, column. -/
structure Loc where
  file : String
  line : Nat
  column : Nat
deriving DecidableEq, Repr

/-- Model of a concrete Rust error value (`E: Error + Send + Sync + 'static`):
a runtime type tag (modelling `TypeId`), its `Display` rendering, and its
native `Error::source` chain (`leaf` = `source()` returns `None`,
`cons` = `source()` returns `Some` of the nested error). -/
inductive NativeError where
  | leaf : Nat → String → NativeError
  | cons : Nat → String → NativeError → NativeError
deriving DecidableEq, Repr

/-- The `TypeId` tag of an error value. -/
def NativeError.tag : NativeError → Nat
  | .leaf t _ => t
  | .cons t _ _ => t

/-- The `Display` rendering (`to_string`) of an error value. -/
def NativeError.display : NativeError → String
  | .leaf _ d => d
  | .cons _ d _ => d

/-- Model of `Error::source`: the native cause chain pointer. -/
def NativeError.source : NativeError → Option NativeError
  | .leaf _ _ => none
  | .cons _ _ s => some s

/-- Model of `Frame` (src/exn.rs): node in an exception tree — an erased error value,
the source location where the frame was created, and the ordered child
frames. -/
inductive Frame where
  | mk : NativeError → Loc → List Frame → Frame

/-- Model of `Frame::error()`. -/
def Frame.error : Frame → NativeError
  | .mk e _ _ => e

/-- Model of `Frame::location()`. -/
def Frame.location : Frame → Loc
  | .mk _ l _ => l

/-- Model of `Frame::children()`. -/
def Frame.children : Frame → List Frame
  | .mk _ _ cs => cs

@[simp] theorem Frame.error_mk (e : NativeError) (l : Loc) (cs : List Frame) :
    (Frame.mk e l cs).error = e := rfl

@[simp] theorem Frame.location_mk (e : NativeError) (l : Loc) (cs : List Frame) :
    (Frame.mk e l cs).location = l := rfl

@[simp] theorem Frame.children_mk (e : NativeError) (l : Loc) (cs : List Frame) :
    (Frame.mk e l cs).children = cs := rfl

/-- The tag reserved for the private `SourceError(String)` type declared
inside `Exn::new`.  (Tags model `TypeId`s; the concrete number is
irrelevant, only that `SourceError` is some fixed type.) -/
def sourceErrorTag : Nat := 0

/-- The `SourceError(source.to_string())` value built by `walk` inside
`Exn::new`: it stores the source's `Display` string and has no `source`
of its own (`impl Error for SourceError {}`). -/
def mkSourceError (s : NativeError) : NativeError :=
  NativeError.leaf sourceErrorTag s.display

/-- Model of `walk` (the local function inside `Exn::new`, src/exn.rs lines 59–69):
follows `error.source()`; for a `Some(source)` it produces the one-element
vector holding a frame whose error is `SourceError(source.to_string())`,
whose location is the location captured for the new root, and whose
children are `walk(source, location)`. -/
def walk : NativeError → Loc → List Frame
  | .leaf _ _, _ => []
  | .cons _ _ s, loc => [Frame.mk (mkSourceError s) loc (walk s loc)]

/-- Model of `Exn<E>` (src/exn.rs): an owned frame plus the phantom type parameter
`E`, modelled by its `TypeId` tag. -/
structure Exn where
  tag : Nat
  frame : Frame

/-- Model of `Exn::new(error)` (src/exn.rs lines 42–83): captures the caller
location, imports the error's native source chain via `walk`, and builds
the root frame holding the (boxed) error itself. -/
def Exn.new (e : NativeError) (loc : Loc) : Exn :=
  { tag := e.tag
    frame := Frame.mk e loc (walk e loc) }

/-- Model of `new_exn.frame.children.push(child_frame)`: push one frame onto the
children list of another frame. -/
def Frame.push : Frame → Frame → Frame
  | .mk e l cs, c => .mk e l (cs ++ [c])

/-- Model of `Exn::raise_all(children, error)` (src/exn.rs lines 86–100): builds
`Exn::new(error)` and then pushes each input's root frame, in iteration
order, onto the new root's children. -/
def Exn.raiseAll (children : List Exn) (e : NativeError) (loc : Loc) : Exn :=
  children.foldl (fun acc child => { acc with frame := acc.frame.push child.frame })
    (Exn.new e loc)

/-- Model of `Exn::raise(self, error)` (src/exn.rs lines 102–108): builds
`Exn::new(error)` and pushes `self`'s root frame onto its children. -/
def Exn.raise (old : Exn) (e : NativeError) (loc : Loc) : Exn :=
  let newExn := Exn.new e loc
  { newExn with frame := newExn.frame.push old.frame }

/-- Model of `<Exn as Deref>::deref` (src/exn.rs lines 124–133):
`self.frame.error().downcast_ref::<E>()`; the downcast succeeds exactly
when the stored value's runtime type is `E`.  `none` models the
`unreachable!("error type must match")` branch. -/
def Exn.deref (x : Exn) : Option NativeError :=
  if x.frame.error.tag = x.tag then some x.frame.error else none

/-- Model of `impl<T: Error + Into<E>> From<T> for Exn<E>` (src/exn.rs lines
153–162): converts the error with `Into` and calls `Exn::new`.  The
`Into` conversion is an arbitrary function producing the `E`-typed
value. -/
def Exn.fromError (conv : NativeError → NativeError) (e : NativeError) (loc : Loc) : Exn :=
  Exn.new (conv e) loc

/-- Model of `ResultExt::or_raise` for `std::result::Result<T, E>` (src/result.rs
lines 38–58): `Ok` passes through; `Err(e)` becomes
`Exn::new(e).raise(err().into())`, both locations being the `or_raise`
call site (`#[track_caller]` propagation). -/
def orRaiseErr {α : Type} (r : Except NativeError α) (err : Unit → NativeError)
    (loc : Loc) : Except Exn α :=
  match r with
  | .ok t => .ok t
  | .error e => .error ((Exn.new e loc).raise (err ()) loc)

/-- Model of `ResultExt::or_raise` for `exn::Result<T, E>` (src/result.rs lines
60–80): `Ok` passes through; `Err(e)` becomes `e.raise(err().into())`. -/
def orRaiseExn {α : Type} (r : Except Exn α) (err : Unit → NativeError)
    (loc : Loc) : Except Exn α :=
  match r with
  | .ok t => .ok t
  | .error e => .error (e.raise (err ()) loc)

/-- Model of `OptionExt::ok_or_raise` (src/option.rs lines 35–53): `Some` passes
through; `None` becomes `Err(Exn::new(err().into()))`. -/
def okOrRaise {α : Type} (o : Option α) (err : Unit → NativeError)
    (loc : Loc) : Except Exn α :=
  match o with
  | some t => .ok t
  | none => .error (Exn.new (err ()) loc)

/-- Model of `Frame::debug` (src/exn.rs lines 203–213): formats
`"{error}, at {file}:{line}:{column}"` for this frame only. -/
def Frame.debug (fr : Frame) : String :=
  fr.error.display ++ ", at " ++ fr.location.file ++ ":" ++
    toString fr.location.line ++ ":" ++ toString fr.location.column

mutual

/-- Model of `Frame::debug_recursive` (src/exn.rs lines 221–243): writes this
frame's `debug` line, then each child with tree-drawing connectors.  The
per-child loop is `debugChildrenLoop`. -/
def Frame.debugRecursive : Frame → Bool → String → String
  | Frame.mk e l cs, root, pre =>
    Frame.debug (Frame.mk e l cs) ++ debugChildrenLoop root pre cs.length 0 cs

/-- The `for (i, child) in children.iter().enumerate()` loop body of
`Frame::debug_recursive`: `root` and the total child count `len` are
fixed over the loop, `i` is the enumeration index. -/
def debugChildrenLoop : Bool → String → Nat → Nat → List Frame → String
  | _, _, _, _, [] => ""
  | root, pre, len, i, c :: rest =>
    (if root && len == 1 && c.children.length == 1 then
      "\n" ++ pre ++ "├─ " ++ Frame.debugRecursive c root pre
    else if i < len - 1 then
      "\n" ++ pre ++ "├─ " ++ Frame.debugRecursive c false (pre ++ "│  ")
    else
      "\n" ++ pre ++ "└─ " ++ Frame.debugRecursive c false (pre ++ "   "))
      ++ debugChildrenLoop root pre len (i + 1) rest

end

/-- Model of `Frame::debug_full` (src/exn.rs lines 217–219):
`debug_recursive(f, true, "")`. -/
def Frame.debugFull (fr : Frame) : String :=
  fr.debugRecursive true ""

/-- Model of `impl Debug for Exn`, non-alternate branch (src/exn.rs lines
135–145): delegates to `frame.debug_full`. -/
def Exn.debugFmt (x : Exn) : String :=
  x.frame.debugFull

/-- Model of `ListFrame` (src/repr/list.rs): the boxed error, its location, and at
most one source link. -/
inductive ListFrame where
  | mk : NativeError → Loc → Option ListFrame → ListFrame

/-- Model of `ListFrame.error`. -/
def ListFrame.error : ListFrame → NativeError
  | .mk e _ _ => e

/-- Model of `ListFrame.location`. -/
def ListFrame.location : ListFrame → Loc
  | .mk _ l _ => l

/-- Model of `<ListFrame as Error>::source` (src/repr/list.rs lines 167–171):
returns the stored `source` link. -/
def ListFrame.sourceErr : ListFrame → Option ListFrame
  | .mk _ _ s => s

/-- Model of `impl From<Frame> for ListFrame` (src/repr/list.rs lines 173–187):
keeps the error and location, and converts only the first child
(`children.into_iter().next()`) recursively into the single source
link, discarding the remaining children. -/
def ListFrame.ofFrame : Frame → ListFrame
  | Frame.mk e l [] => ListFrame.mk e l none
  | Frame.mk e l (c :: _) => ListFrame.mk e l (some (ListFrame.ofFrame c))

/-- Model of `impl Debug for ListFrame`, non-alternate branch (src/repr/list.rs
lines 140–159): `"{error}, at {file}:{line}:{column}"` — a single line,
no recursion into the source chain. -/
def ListFrame.debugFmt (fr : ListFrame) : String :=
  fr.error.display ++ ", at " ++ fr.location.file ++ ":" ++
    toString fr.location.line ++ ":" ++ toString fr.location.column

/-- Model of `ListExn<T>` (src/repr/list.rs): a boxed `ListFrame` (the phantom
type parameter carries no data and is dropped in the model). -/
structure ListExn where
  frame : ListFrame

/-- Model of `impl From<Exn<T>> for ListExn<T>` (src/repr/list.rs lines 116–126):
converts the exception's root frame into a `ListFrame`. -/
def ListExn.ofExn (x : Exn) : ListExn :=
  { frame := ListFrame.ofFrame x.frame }

/-- Model of `impl Debug for ListExn`, non-alternate branch (src/repr/list.rs
lines 86–99): delegates to the frame's `Debug`. -/
def ListExn.debugFmt (x : ListExn) : String :=
  x.frame.debugFmt

/-- Model of `<ListExn as Error>::source` (src/repr/list.rs lines 110–114):
`self.frame.source()`. -/
def ListExn.sourceErr (x : ListExn) : Option ListFrame :=
  x.frame.sourceErr

/-- Model of `TreeExn<T>` (src/repr/tree.rs lines 33–35): holds the original
`Exn<T>` unchanged. -/
structure TreeExn where
  toExn : Exn

/-- Model of `impl From<Exn<T>> for TreeExn<T>` (src/repr/tree.rs lines 57–64). -/
def TreeExn.ofExn (x : Exn) : TreeExn :=
  { toExn := x }

/-- Model of `impl Debug for TreeExn` (src/repr/tree.rs lines 37–44): delegates
to the wrapped `Exn`'s `Debug`. -/
def TreeExn.debugFmt (t : TreeExn) : String :=
  t.toExn.debugFmt

/-- Model of `impl Error for TreeExn` (src/repr/tree.rs line 55): the impl block
is empty, so `source` is the trait's default body, which returns
`None`. -/
def TreeExn.sourceErr (_t : TreeExn) : Option ListFrame :=
  none

/-- Model of `ExnAny<Tree>` (src/repr.rs lines 73–89 instantiated at the default
`Tree` representation): boxes `Tree::Impl<E> = TreeExn<E>` built from the
exception. -/
structure ExnAnyTree where
  error : TreeExn

/-- Model of `impl From<Exn<E>> for ExnAny<T>` at `T = Tree` (src/repr.rs lines
78–89). -/
def ExnAnyTree.ofExn (x : Exn) : ExnAnyTree :=
  { error := TreeExn.ofExn x }

/-- Model of `impl Debug for ExnAny` at `Tree` (src/repr.rs lines 91–95):
delegates to the boxed wrapper's `Debug`. -/
def ExnAnyTree.debugFmt (a : ExnAnyTree) : String :=
  a.error.debugFmt

/-- Model of `impl Error for ExnAny` at `Tree` (src/repr.rs lines 103–107):
`self.error.source()`, i.e. `TreeExn`'s `source`. -/
def ExnAnyTree.sourceErr (a : ExnAnyTree) : Option ListFrame :=
  a.error.sourceErr

/-- Model of `ExnAny<List>` (src/repr.rs lines 73–89 instantiated at the `List`
representation): boxes `List::Impl<E> = ListExn<E>`. -/
structure ExnAnyList where
  error : ListExn

/-- Model of `impl From<Exn<E>> for ExnAny<T>` at `T = List` (src/repr.rs lines
78–89). -/
def ExnAnyList.ofExn (x : Exn) : ExnAnyList :=
  { error := ListExn.ofExn x }

/-- Model of `impl Error for ExnAny` at `List` (src/repr.rs lines 103–107):
`self.error.source()`, i.e. `ListExn`'s `source`. -/
def ExnAnyList.sourceErr (a : ExnAnyList) : Option ListFrame :=
  a.error.sourceErr

/-- Model of `Result::err` — the error payload of a result, if any. -/
def exceptErr {ε α : Type} : Except ε α → Option ε
  | .ok _ => none
  | .error e => some e

/-- The inner `self.by_ref().collect::<Result<A, E>>()` of
`IteratorExt::collect_all` (src/iter.rs lines 75–88): `Result`'s
`FromIterator` short-circuits at the first `Err`; the second component
is the iterator's remaining (unconsumed) items at that point. -/
def collectShort {ε α : Type} : List (Except ε α) → Except ε (List α) × List (Except ε α)
  | [] => (Except.ok [], [])
  | Except.ok t :: rest =>
    match collectShort rest with
    | (Except.ok ts, rem) => (Except.ok (t :: ts), rem)
    | (Except.error e, rem) => (Except.error e, rem)
  | Except.error e :: rest => (Except.error e, rest)

/-- Model of `IteratorExt::collect_all` (src/iter.rs lines 75–88): collect with
short-circuit; on the `Err(first_err)` outcome, chain `first_err` with
the `Err` payloads of the remaining items (`filter_map(Result::err)`). -/
def collectAll {ε α : Type} (rs : List (Except ε α)) : Except (List ε) (List α) :=
  match collectShort rs with
  | (Except.ok ts, _) => Except.ok ts
  | (Except.error e, rem) => Except.error (e :: rem.filterMap exceptErr)

/-! ## Helper lemmas -/

theorem Frame.eta (f : Frame) : Frame.mk f.error f.location f.children = f := by
  cases f; rfl

@[simp] theorem Frame.push_mk (e : NativeError) (l : Loc) (cs : List Frame) (c : Frame) :
    (Frame.mk e l cs).push c = Frame.mk e l (cs ++ [c]) := rfl

/-- The `for` loop of `raise_all` appends the input frames, in order,
after the accumulator's existing children, and leaves the root error,
location and tag unchanged. -/
theorem foldl_push_frame (cs : List Exn) (x : Exn) :
    (List.foldl (fun acc child => { acc with frame := acc.frame.push child.frame }) x cs)
      = { tag := x.tag,
          frame := Frame.mk x.frame.error x.frame.location
            (x.frame.children ++ cs.map Exn.frame) } := by
  induction cs generalizing x with
  | nil => simp [Frame.eta]
  | cons c rest ih =>
    cases x with
    | mk t f =>
      cases f with
      | mk e l fcs =>
        simp only [List.foldl_cons, List.map_cons]
        rw [ih]
        simp [Frame.push]

theorem raiseAll_def (cs : List Exn) (e : NativeError) (loc : Loc) :
    Exn.raiseAll cs e loc
      = { tag := e.tag, frame := Frame.mk e loc (walk e loc ++ cs.map Exn.frame) } := by
  unfold Exn.raiseAll
  rw [foldl_push_frame]
  rfl

theorem raise_def (old : Exn) (e : NativeError) (loc : Loc) :
    Exn.raise old e loc
      = { tag := e.tag, frame := Frame.mk e loc (walk e loc ++ [old.frame]) } := rfl

/-! ## Claims -/

/-- C2 — Merge-many child ordering: the root frame of
`Exn::raise_all(inputs, X)` has children exactly the frames produced by
the source-chain importer for `X` followed by the inputs' root frames in
iteration order; in particular for `[a, b, c]` the children are
`walk X ++ [a.frame, b.frame, c.frame]`, and with zero inputs
`raise_all([], X)` is exactly `Exn::new(X)`. -/
theorem raiseAll_children_order :
    (∀ (inputs : List Exn) (X : NativeError) (loc : Loc),
      (Exn.raiseAll inputs X loc).frame.children = walk X loc ++ inputs.map Exn.frame)
    ∧ (∀ (a b c : Exn) (X : NativeError) (loc : Loc),
      (Exn.raiseAll [a, b, c] X loc).frame.children
        = walk X loc ++ [a.frame, b.frame, c.frame])
    ∧ (∀ (X : NativeError) (loc : Loc), Exn.raiseAll [] X loc = Exn.new X loc) := by
  refine ⟨fun inputs X loc => ?_, fun a b c X loc => ?_, fun X loc => ?_⟩
  · rw [raiseAll_def]
    rfl
  · rw [raiseAll_def]
    rfl
  · rw [raiseAll_def]
    simp [Exn.new]

/-- C7 — Location fidelity of wrap-one: the root frame produced by
`Exn::raise(old, error)` carries the location passed at the `raise` call
site (independent of `old`'s stored locations), and the wrapped tree's
root frame — hence every frame below it, with all their locations —
appears verbatim (unchanged) as the last child of the new root. -/
theorem raise_location_fidelity :
    ∀ (old : Exn) (e : NativeError) (loc : Loc),
      (Exn.raise old e loc).frame.location = loc
      ∧ (Exn.raise old e loc).frame.children = walk e loc ++ [old.frame] := by
  intro old e loc
  rw [raise_def]
  exact ⟨rfl, rfl⟩

/-- C8 — Frame preservation under merge: `raise` and `raise_all` build a
fresh root (error = the new error, location = the call site) and only
append to that root's children; every input `Exn`'s entire frame
sub-tree appears, as the very same value (so with unchanged error
values, locations and child structure at every node), among the new
root's children. -/
theorem merge_preserves_frames :
    (∀ (inputs : List Exn) (X : NativeError) (loc : Loc),
      (Exn.raiseAll inputs X loc).frame.error = X
      ∧ (Exn.raiseAll inputs X loc).frame.location = loc
      ∧ ∀ x ∈ inputs, x.frame ∈ (Exn.raiseAll inputs X loc).frame.children)
    ∧ (∀ (old : Exn) (e : NativeError) (loc : Loc),
      (Exn.raise old e loc).frame.error = e
      ∧ (Exn.raise old e loc).frame.location = loc
      ∧ old.frame ∈ (Exn.raise old e loc).frame.children) := by
  constructor
  · intro inputs X loc
    rw [raiseAll_def]
    refine ⟨rfl, rfl, fun x hx => ?_⟩
    simp only [Frame.children_mk, List.mem_append, List.mem_map]
    exact Or.inr ⟨x, hx, rfl⟩
  · intro old e loc
    rw [raise_def]
    refine ⟨rfl, rfl, ?_⟩
    simp

/-- C8 witness: a concrete instance of frame preservation. -/
theorem merge_preserves_frames_witness :
    (Exn.new (NativeError.leaf 7 "a") ⟨"a.rs", 1, 2⟩).frame
      ∈ (Exn.raiseAll [Exn.new (NativeError.leaf 7 "a") ⟨"a.rs", 1, 2⟩]
          (NativeError.leaf 8 "X") ⟨"m.rs", 9, 1⟩).frame.children :=
  (merge_preserves_frames.1 [Exn.new (NativeError.leaf 7 "a") ⟨"a.rs", 1, 2⟩]
    (NativeError.leaf 8 "X") ⟨"m.rs", 9, 1⟩).2.2
    (Exn.new (NativeError.leaf 7 "a") ⟨"a.rs", 1, 2⟩) (by simp)

/-- An `Exn` value produced by one of the crate's public construction
operations: `Exn::new`, `Exn::raise`, `Exn::raise_all`, the `From`
conversion, `ResultExt::or_raise` (either impl), or
`OptionExt::ok_or_raise`. -/
inductive Constructed : Exn → Prop where
  | ofNew : ∀ (e : NativeError) (loc : Loc), Constructed (Exn.new e loc)
  | ofRaise : ∀ (old : Exn) (e : NativeError) (loc : Loc),
      Constructed (Exn.raise old e loc)
  | ofRaiseAll : ∀ (cs : List Exn) (e : NativeError) (loc : Loc),
      Constructed (Exn.raiseAll cs e loc)
  | ofFrom : ∀ (conv : NativeError → NativeError) (e : NativeError) (loc : Loc),
      Constructed (Exn.fromError conv e loc)
  | ofOrRaiseErr : ∀ {α : Type} (r : Except NativeError α) (f : Unit → NativeError)
      (loc : Loc) (x : Exn), orRaiseErr r f loc = Except.error x → Constructed x
  | ofOrRaiseExn : ∀ {α : Type} (r : Except Exn α) (f : Unit → NativeError)
      (loc : Loc) (x : Exn), orRaiseExn r f loc = Except.error x → Constructed x
  | ofOkOrRaise : ∀ {α : Type} (o : Option α) (f : Unit → NativeError)
      (loc : Loc) (x : Exn), okOrRaise o f loc = Except.error x → Constructed x

theorem deref_new (e : NativeError) (loc : Loc) :
    (Exn.new e loc).deref = some (Exn.new e loc).frame.error := by
  simp [Exn.deref, Exn.new]

theorem deref_raise (old : Exn) (e : NativeError) (loc : Loc) :
    (Exn.raise old e loc).deref = some (Exn.raise old e loc).frame.error := by
  rw [raise_def]
  simp [Exn.deref]

theorem deref_raiseAll (cs : List Exn) (e : NativeError) (loc : Loc) :
    (Exn.raiseAll cs e loc).deref = some (Exn.raiseAll cs e loc).frame.error := by
  rw [raiseAll_def]
  simp [Exn.deref]

/-- C1 — Downcast soundness: for every `Exn` produced by any public
construction operation, the `Deref` impl's `downcast_ref` on the root
frame's erased error succeeds (returns the stored error); the
`unreachable!("error type must match")` branch (`deref = none` in the
model) is never taken. -/
theorem downcast_soundness :
    ∀ (x : Exn), Constructed x → x.deref = some x.frame.error := by
  intro x h
  induction h with
  | ofNew e loc => exact deref_new e loc
  | ofRaise old e loc => exact deref_raise old e loc
  | ofRaiseAll cs e loc => exact deref_raiseAll cs e loc
  | ofFrom conv e loc => exact deref_new (conv e) loc
  | ofOrRaiseErr r f loc x heq =>
    cases r with
    | ok t => simp [orRaiseErr] at heq
    | error e =>
      simp only [orRaiseErr, Except.error.injEq] at heq
      subst heq
      exact deref_raise _ _ _
  | ofOrRaiseExn r f loc x heq =>
    cases r with
    | ok t => simp [orRaiseExn] at heq
    | error e =>
      simp only [orRaiseExn, Except.error.injEq] at heq
      subst heq
      exact deref_raise _ _ _
  | ofOkOrRaise o f loc x heq =>
    cases o with
    | some t => simp [okOrRaise] at heq
    | none =>
      simp only [okOrRaise, Except.error.injEq] at heq
      subst heq
      exact deref_new _ _

/-- C1 witness: downcast succeeds on a concretely constructed `Exn`. -/
theorem downcast_soundness_witness :
    (Exn.raise (Exn.new (NativeError.leaf 3 "inner") ⟨"a.rs", 1, 2⟩)
        (NativeError.leaf 4 "outer") ⟨"b.rs", 5, 6⟩).deref
      = some (Exn.raise (Exn.new (NativeError.leaf 3 "inner") ⟨"a.rs", 1, 2⟩)
          (NativeError.leaf 4 "outer") ⟨"b.rs", 5, 6⟩).frame.error :=
  downcast_soundness _
    (Constructed.ofRaise (Exn.new (NativeError.leaf 3 "inner") ⟨"a.rs", 1, 2⟩)
      (NativeError.leaf 4 "outer") ⟨"b.rs", 5, 6⟩)

/-- The links of an error's native `Error::source` chain, outermost
link first (`error.source()`, `error.source().source()`, …). -/
def sourceLinks : NativeError → List NativeError
  | .leaf _ _ => []
  | .cons _ _ s => s :: sourceLinks s

/-- Spec-side characterization (§4.2 of the spec) of the importer's
output: a right-leaning chain of single-child frames, one per source
link's display text, each an opaque `SourceError` leaf attached at the
importing frame's location. -/
def specLinearChain : List String → Loc → List Frame
  | [], _ => []
  | s :: rest, loc =>
    [Frame.mk (NativeError.leaf sourceErrorTag s) loc (specLinearChain rest loc)]

/-- C3 — Importer linearity: for an error whose native source chain has
links `sourceLinks e` (length n), `Exn::new` produces a root frame at
the captured location whose children are exactly the right-leaning
chain of n single-child `SourceError` frames, the k-th rendering the
k-th link's display text, every one carrying the root's location. -/
theorem importer_linearity :
    ∀ (e : NativeError) (loc : Loc),
      walk e loc = specLinearChain ((sourceLinks e).map NativeError.display) loc
      ∧ (Exn.new e loc).frame.children
          = specLinearChain ((sourceLinks e).map NativeError.display) loc
      ∧ (Exn.new e loc).frame.location = loc := by
  have hwalk : ∀ (e : NativeError) (loc : Loc),
      walk e loc = specLinearChain ((sourceLinks e).map NativeError.display) loc := by
    intro e
    induction e with
    | leaf t d => intro loc; rfl
    | cons t d s ih =>
      intro loc
      simp only [walk, sourceLinks, List.map_cons, specLinearChain, ih, mkSourceError]
  intro e loc
  exact ⟨hwalk e loc, hwalk e loc, rfl⟩

/-- C10 — `ExnAny<Tree>::source()` is `None` for every erased `Exn`,
regardless of how many children the underlying tree has (`TreeExn`'s
`Error` impl provides no `source` override), whereas the `List`
representation's source chain is populated: it is exactly the
linearization of the first child, when one exists. -/
theorem exnAnyTree_source_none :
    ∀ (x : Exn),
      (ExnAnyTree.ofExn x).sourceErr = none
      ∧ (ExnAnyList.ofExn x).sourceErr
          = (x.frame.children.head?).map ListFrame.ofFrame := by
  intro x
  refine ⟨rfl, ?_⟩
  cases x with
  | mk t f =>
    cases f with
    | mk e l cs =>
      cases cs with
      | nil => rfl
      | cons c rest => rfl

/-- C6 — Tree representation round-trip on rendering: converting any
`Exn` into the Tree representation (`TreeExn` or `ExnAny<Tree>`) and
rendering it with the full recursive renderer (non-alternate `Debug`)
yields exactly the same string as rendering the original `Exn`; in
particular for a tree built as `raise_all([a, b], X)`. -/
theorem tree_roundtrip_render :
    (∀ (x : Exn), (ExnAnyTree.ofExn x).debugFmt = x.debugFmt)
    ∧ (∀ (x : Exn), (TreeExn.ofExn x).debugFmt = x.debugFmt)
    ∧ (∀ (a b : Exn) (X : NativeError) (loc : Loc),
      (ExnAnyTree.ofExn (Exn.raiseAll [a, b] X loc)).debugFmt
        = (Exn.raiseAll [a, b] X loc).debugFmt) := by
  exact ⟨fun x => rfl, fun x => rfl, fun a b X loc => rfl⟩

/-- C5 — List representation linearization: converting a `Frame` into a
`ListFrame` keeps the error and location and recursively keeps only the
first child as the single source link, discarding all other children;
for `raise_all([a, b], X)` with `X` having no native source chain, the
single-node rendering of the `List` wrapper is only `X`'s own line, and
one step of the wrapper's source relation reaches exactly the
linearization of `a`'s root frame (first sibling wins), never `b`'s. -/
theorem list_linearization :
    (∀ (f : Frame),
      ListFrame.ofFrame f
        = ListFrame.mk f.error f.location ((f.children.head?).map ListFrame.ofFrame))
    ∧ (∀ (a b : Exn) (tx : Nat) (dx : String) (loc : Loc),
      (ListExn.ofExn (Exn.raiseAll [a, b] (NativeError.leaf tx dx) loc)).debugFmt
        = dx ++ ", at " ++ loc.file ++ ":" ++ toString loc.line ++ ":" ++
            toString loc.column
      ∧ (ListExn.ofExn (Exn.raiseAll [a, b] (NativeError.leaf tx dx) loc)).sourceErr
          = some (ListFrame.ofFrame a.frame)) := by
  constructor
  · intro f
    cases f with
    | mk e l cs =>
      cases cs with
      | nil => rfl
      | cons c rest => rfl
  · intro a b tx dx loc
    rw [raiseAll_def]
    constructor
    · simp [ListExn.ofExn, ListExn.debugFmt, walk, ListFrame.ofFrame,
        ListFrame.debugFmt, ListFrame.error, ListFrame.location,
        NativeError.display]
    · simp [ListExn.ofExn, ListExn.sourceErr, walk, ListFrame.ofFrame,
        ListFrame.sourceErr]

/-- Model of `Result::ok` — the success payload of a result, if any. -/
def exceptOk {ε α : Type} : Except ε α → Option α
  | .ok t => some t
  | .error _ => none

/-- Characterization of the short-circuiting inner collect of
`collect_all`: either every item is `Ok` and it returns all success
values with nothing left in the iterator, or the input splits at the
first `Err`, whose payload is returned with exactly the items after it
left unconsumed. -/
theorem collectShort_char {ε α : Type} :
    ∀ (rs : List (Except ε α)),
      ((∀ r ∈ rs, exceptErr r = none)
        ∧ collectShort rs = (Except.ok (rs.filterMap exceptOk), []))
      ∨ (∃ e pre suf, rs = pre ++ Except.error e :: suf
        ∧ (∀ r ∈ pre, exceptErr r = none)
        ∧ collectShort rs = (Except.error e, suf)) := by
  intro rs
  induction rs with
  | nil => exact Or.inl ⟨by simp, rfl⟩
  | cons r rest ih =>
    cases r with
    | ok t =>
      rcases ih with ⟨hall, heq⟩ | ⟨e, pre, suf, hsplit, hpre, heq⟩
      · refine Or.inl ⟨?_, ?_⟩
        · intro r hr
          rcases List.mem_cons.mp hr with h | h
          · subst h; rfl
          · exact hall r h
        · simp [collectShort, heq, exceptOk]
      · refine Or.inr ⟨e, Except.ok t :: pre, suf, by simp [hsplit], ?_, ?_⟩
        · intro r hr
          rcases List.mem_cons.mp hr with h | h
          · subst h; rfl
          · exact hpre r h
        · simp [collectShort, heq]
    | error e =>
      exact Or.inr ⟨e, [], rest, by simp, by simp, rfl⟩

/-- C9 — `collect_all` reducer: for every finite list of results it
returns `Ok` of all success values in order when every item is `Ok`,
and otherwise `Err` of exactly the `Err` payloads of all failing items
in their original iteration order (no short-circuiting: failures after
the first are all retained). -/
theorem collectAll_spec {ε α : Type} :
    ∀ (rs : List (Except ε α)),
      collectAll rs
        = if rs.any (fun r => (exceptErr r).isSome)
            then Except.error (rs.filterMap exceptErr)
            else Except.ok (rs.filterMap exceptOk) := by
  intro rs
  rcases collectShort_char rs with ⟨hall, heq⟩ | ⟨e, pre, suf, hsplit, hpre, heq⟩
  · have hany : rs.any (fun r => (exceptErr r).isSome) = false := by
      simp only [List.any_eq_false]
      intro r hr
      simp [hall r hr]
    rw [collectAll, heq, hany]
    simp
  · have hany : rs.any (fun r => (exceptErr r).isSome) = true := by
      simp only [List.any_eq_true]
      exact ⟨Except.error e, by simp [hsplit], rfl⟩
    rw [collectAll, heq, hany]
    simp only [if_true]
    have hprenil : pre.filterMap exceptErr = [] :=
      List.filterMap_eq_nil_iff.mpr hpre
    simp [hsplit, List.filterMap_append, hprenil, exceptErr]

/-- C4 — Flattening law of the renderer: full-recursive rendering of a
chain built by four consecutive `raise` calls on a single origin (no
merges, no native source chains) yields one line per frame, every line
introduced by a uniform-width connector (`├─ `, last `└─ `) with an
empty continuation prefix at every level (no staircase indentation);
rendering a tree whose root has two merged sibling children instead
widens the continuation prefix (`│  ` resp. `   `) by one level beneath
the branch point. -/
theorem renderer_flattening_law :
    (∀ (t0 t1 t2 t3 t4 : Nat) (d0 d1 d2 d3 d4 : String) (l0 l1 l2 l3 l4 : Loc),
      (((((Exn.new (NativeError.leaf t0 d0) l0).raise (NativeError.leaf t1 d1) l1).raise
          (NativeError.leaf t2 d2) l2).raise (NativeError.leaf t3 d3) l3).raise
          (NativeError.leaf t4 d4) l4).debugFmt
        = Frame.debug (Frame.mk (NativeError.leaf t4 d4) l4 [])
          ++ "\n" ++ "├─ " ++ Frame.debug (Frame.mk (NativeError.leaf t3 d3) l3 [])
          ++ "\n" ++ "├─ " ++ Frame.debug (Frame.mk (NativeError.leaf t2 d2) l2 [])
          ++ "\n" ++ "├─ " ++ Frame.debug (Frame.mk (NativeError.leaf t1 d1) l1 [])
          ++ "\n" ++ "└─ " ++ Frame.debug (Frame.mk (NativeError.leaf t0 d0) l0 []))
    ∧ (∀ (ta0 ta1 tb0 tb1 tx : Nat) (da0 da1 db0 db1 dx : String)
        (la0 la1 lb0 lb1 lx : Loc),
      (Exn.raiseAll
          [(Exn.new (NativeError.leaf ta0 da0) la0).raise (NativeError.leaf ta1 da1) la1,
           (Exn.new (NativeError.leaf tb0 db0) lb0).raise (NativeError.leaf tb1 db1) lb1]
          (NativeError.leaf tx dx) lx).debugFmt
        = Frame.debug (Frame.mk (NativeError.leaf tx dx) lx [])
          ++ "\n" ++ "├─ " ++ Frame.debug (Frame.mk (NativeError.leaf ta1 da1) la1 [])
          ++ "\n" ++ "│  " ++ "└─ "
            ++ Frame.debug (Frame.mk (NativeError.leaf ta0 da0) la0 [])
          ++ "\n" ++ "└─ " ++ Frame.debug (Frame.mk (NativeError.leaf tb1 db1) lb1 [])
          ++ "\n" ++ "   " ++ "└─ "
            ++ Frame.debug (Frame.mk (NativeError.leaf tb0 db0) lb0 [])) := by
  constructor
  · intro t0 t1 t2 t3 t4 d0 d1 d2 d3 d4 l0 l1 l2 l3 l4
    simp [Exn.debugFmt, Frame.debugFull, Exn.raise, Exn.new, walk, Frame.push,
      Frame.debugRecursive, debugChildrenLoop, Frame.debug, NativeError.display,
      String.append_assoc, String.empty_append, String.append_empty]
  · intro ta0 ta1 tb0 tb1 tx da0 da1 db0 db1 dx la0 la1 lb0 lb1 lx
    rw [raiseAll_def]
    simp [Exn.debugFmt, Frame.debugFull, Exn.raise, Exn.new, walk, Frame.push,
      Frame.debugRecursive, debugChildrenLoop, Frame.debug, NativeError.display,
      String.append_assoc, String.empty_append, String.append_empty]
